import Mathlib

/-!
# The PHP binding of Skein (`server/lib/skein/php_skein.c`)

A shallow embedding of the binding layer: the three fixed-width one-shot
helpers `skein256_hash_buffer`, `skein512_hash_buffer`, `skein1024_hash_buffer`,
the dispatcher `skein_hash_buffer`, and the two PHP entry points `skein_hash`
and `skein_hash_hex`.

Conventions.
* A byte is a `Nat` (0..255); a C `long` is an `Int`; a `size_t` is a `Nat`.
* A C array is a store `Nat → Nat` from offsets to bytes, together with its
  declared size where the code uses `sizeof`.  The prior content of a stack array
  is an argument of the function that declares it, since C leaves it unspecified.
* A store past the end of `char res[256]` is undefined behaviour in C; a run of
  `skein_hash_hex` that makes one ends in `Outcome.undefined_behaviour`, not in a value.
* Entering a fixed-width helper and every call that leaves the translation unit
  (the Skein core, `memset`, `php_error_docref`, `abort`) is appended to an event
  log, so that "is called" and "is not called" are statements about the log.
-/

namespace PhpSkein

/-! ## The Skein core, a parameter -/

/-- Modelled from the spec: one instantiation of the streaming interface of `skein.h`
(`Skein_256_Init`/`Update`/`Final` and the 512 and 1024 analogues), whose declarations
and implementation are not among the sources.  Following the interface of section 6
(`init`, `update`, `final`), `Init` receives the requested bit length, `Update` the
message bytes, and `Final` yields the bytes it stores through its `hashVal` pointer,
starting at offset 0.  The functions themselves stay a parameter. -/
structure SkeinFns where
  Ctxt : Type
  Init : Nat → Ctxt
  Update : Ctxt → List Nat → Ctxt
  Final : Ctxt → List Nat

/-- The three instantiations the binding links against. -/
structure SkeinCore where
  Skein_256 : SkeinFns
  Skein_512 : SkeinFns
  Skein1024 : SkeinFns

/-- Which instantiation an event refers to. -/
inductive Variant
  | Skein_256
  | Skein_512
  | Skein1024
  deriving DecidableEq, Repr

/-- Steps of a run, in the order they happen: entry into one of the fixed-width helpers
(`hash_buffer`), and the calls that leave `php_skein.c`. -/
inductive Event
  | hash_buffer (v : Variant)
  | memset (n : Nat)
  | Init (v : Variant) (hashBitLen : Nat)
  | Update (v : Variant) (msg : List Nat)
  | Final (v : Variant)
  | php_error_docref (msg : String)
  | abort
  deriving DecidableEq, Repr

/-! ## C-level helpers -/

/-- The constant `SKEIN_DEFAULT_BITS_LENGTH`, defined as 512. -/
def SKEIN_DEFAULT_BITS_LENGTH : Int := 512

/-- The call `memset(p, c, n)` on a store. -/
def memset (mem : Nat → Nat) (c n : Nat) : Nat → Nat :=
  fun i => if i < n then c else mem i

/-- Storing the bytes `d` at offsets `0 .. d.length - 1` of a store. -/
def write_bytes (mem : Nat → Nat) (d : List Nat) : Nat → Nat :=
  fun i => if i < d.length then d.getD i 0 else mem i

/-- A single store `p[i] = v`. -/
def store (mem : Nat → Nat) (i v : Nat) : Nat → Nat :=
  fun k => if k = i then v else mem k

/-- The `len` bytes at offsets `0 .. len - 1`, as `RETURN_STRINGL(p, len, 1)` copies them. -/
def read_bytes (mem : Nat → Nat) (len : Nat) : List Nat :=
  (List.range len).map mem

/-- The cast `(size_t) x` of a C `long` on a 64-bit target. -/
def size_t_of_long (x : Int) : Nat := (x % 2 ^ 64).toNat

/-- C `ceil` applied to an integer operand: `ceil(hash_bitlen / 8)` first performs the
integer division on `long`, converts the quotient to `double` (exact on the values
that reach this line) and rounds that up. -/
def ceil_of_long (q : Int) : Int := Int.ceil ((q : ℚ))

/-- Two's-complement bit pattern of a C `int`. -/
def int_bits (x : Int) : Nat := (x % 2 ^ 32).toNat

/-- The C `int` with a given 32-bit pattern. -/
def int_of_bits (n : Nat) : Int :=
  if n % 2 ^ 32 < 2 ^ 31 then ((n % 2 ^ 32 : Nat) : Int) else ((n % 2 ^ 32 : Nat) : Int) - 2 ^ 32

/-- C `a & b` on `int`. -/
def c_and (a b : Int) : Int := int_of_bits (int_bits a &&& int_bits b)

/-- C `a >> k` on `int`. -/
def c_shr (a : Int) (k : Nat) : Int := a >>> k

/-- The value of a `char` holding byte `b`, after promotion to `int`; the signedness of
plain `char` is the platform's choice. -/
def char_value (char_is_signed : Bool) (b : Nat) : Int :=
  if char_is_signed && decide (128 ≤ b % 256) then ((b % 256 : Nat) : Int) - 256
  else ((b % 256 : Nat) : Int)

/-- The table `static const char hexits[] = "0123456789abcdef";` with its terminating NUL. -/
def hexits : List Nat :=
  "0123456789abcdef".toList.map Char.toNat ++ [0]

/-- The read `hexits[i]` for an `int` index. -/
def hexits_at (i : Int) : Nat := hexits.getD i.toNat 0

/-! ## The one-shot helpers -/

/-- Result of a `*_hash_buffer` call: the C return value, the digest buffer afterwards,
and the calls made. -/
structure HashRun where
  ret : Int
  hash : Nat → Nat
  log : List Event

/-- The helper `skein256_hash_buffer`; `buf_size` is the length the caller passes for `buf`. -/
def skein256_hash_buffer (core : SkeinCore) (hash : Nat → Nat) (sizeof_hash : Nat)
    (buf : List Nat) (buf_size : Nat) (hash_bitlen : Nat) : HashRun :=
  if sizeof_hash < 32 then
    ⟨-1, hash, [Event.hash_buffer Variant.Skein_256]⟩
  else
    let hash1 := memset hash 0 32
    let ctx := core.Skein_256.Init hash_bitlen
    let ctx := core.Skein_256.Update ctx (buf.take buf_size)
    let hash2 := write_bytes hash1 (core.Skein_256.Final ctx)
    ⟨0, hash2,
      [Event.hash_buffer Variant.Skein_256, Event.memset 32,
       Event.Init Variant.Skein_256 hash_bitlen,
       Event.Update Variant.Skein_256 (buf.take buf_size),
       Event.Final Variant.Skein_256]⟩

/-- The helper `skein512_hash_buffer`. -/
def skein512_hash_buffer (core : SkeinCore) (hash : Nat → Nat) (sizeof_hash : Nat)
    (buf : List Nat) (buf_size : Nat) (hash_bitlen : Nat) : HashRun :=
  if sizeof_hash < 64 then
    ⟨-1, hash, [Event.hash_buffer Variant.Skein_512]⟩
  else
    let hash1 := memset hash 0 64
    let ctx := core.Skein_512.Init hash_bitlen
    let ctx := core.Skein_512.Update ctx (buf.take buf_size)
    let hash2 := write_bytes hash1 (core.Skein_512.Final ctx)
    ⟨0, hash2,
      [Event.hash_buffer Variant.Skein_512, Event.memset 64,
       Event.Init Variant.Skein_512 hash_bitlen,
       Event.Update Variant.Skein_512 (buf.take buf_size),
       Event.Final Variant.Skein_512]⟩

/-- The helper `skein1024_hash_buffer`. -/
def skein1024_hash_buffer (core : SkeinCore) (hash : Nat → Nat) (sizeof_hash : Nat)
    (buf : List Nat) (buf_size : Nat) (hash_bitlen : Nat) : HashRun :=
  if sizeof_hash < 128 then
    ⟨-1, hash, [Event.hash_buffer Variant.Skein1024]⟩
  else
    let hash1 := memset hash 0 128
    let ctx := core.Skein1024.Init hash_bitlen
    let ctx := core.Skein1024.Update ctx (buf.take buf_size)
    let hash2 := write_bytes hash1 (core.Skein1024.Final ctx)
    ⟨0, hash2,
      [Event.hash_buffer Variant.Skein1024, Event.memset 128,
       Event.Init Variant.Skein1024 hash_bitlen,
       Event.Update Variant.Skein1024 (buf.take buf_size),
       Event.Final Variant.Skein1024]⟩

/-- The dispatcher `skein_hash_buffer`. -/
def skein_hash_buffer (core : SkeinCore) (hash : Nat → Nat) (sizeof_hash : Nat)
    (buf : List Nat) (buf_size : Nat) (hash_bitlen : Nat) : HashRun :=
  if hash_bitlen ≤ 256 then
    skein256_hash_buffer core hash sizeof_hash buf buf_size hash_bitlen
  else if hash_bitlen ≤ 512 then
    skein512_hash_buffer core hash sizeof_hash buf buf_size hash_bitlen
  else
    skein1024_hash_buffer core hash sizeof_hash buf buf_size hash_bitlen

/-! ## The PHP entry points -/

/-- The PHP values the two functions can hand back. -/
inductive zval
  | null
  | bool (b : Bool)
  | string (s : List Nat)
  deriving DecidableEq, Repr

/-- What `zend_parse_parameters(..., "s|l", &buf, &buf_size, &hash_bitlen)` delivers:
`FAILURE`, or the string argument and the optional integer argument (absent: the
variable `hash_bitlen` keeps its initial value). -/
inductive ParseResult
  | FAILURE
  | SUCCESS (buf : List Nat) (hash_bitlen : Option Int)

/-- How an entry point ends: it returns a value, it calls `abort()`, or it has accessed an
array outside its declared bounds, after which C defines no behaviour and no result. -/
inductive Outcome
  | returned (v : zval)
  | aborted
  | undefined_behaviour
  deriving DecidableEq, Repr

/-- A run of an entry point: how it ended, the calls made, the offsets of `hash` read to
build the result, and the offsets of `res` stored to. -/
structure PhpRun where
  outcome : Outcome
  log : List Event
  hash_reads : List Nat
  res_writes : List Nat
  deriving DecidableEq, Repr

/-- The entry point `PHP_FUNCTION(skein_hash)`; `hash` is the prior content of `char hash[128]`. -/
def skein_hash (core : SkeinCore) (hash : Nat → Nat) (args : ParseResult) : PhpRun :=
  match args with
  | ParseResult.FAILURE => ⟨Outcome.returned zval.null, [], [], []⟩
  | ParseResult.SUCCESS buf arg =>
    let hash_bitlen : Int := arg.getD SKEIN_DEFAULT_BITS_LENGTH
    if hash_bitlen < 1 ∨ hash_bitlen > 1024 then
      ⟨Outcome.returned (zval.bool false), [Event.php_error_docref "Bad bit length"], [], []⟩
    else
      let r := skein_hash_buffer core hash 128 buf buf.length (size_t_of_long hash_bitlen)
      if r.ret ≠ 0 then
        ⟨Outcome.returned (zval.bool false), r.log, [], []⟩
      else
        let len := (ceil_of_long (hash_bitlen.tdiv 8)).toNat
        ⟨Outcome.returned (zval.string (read_bytes r.hash len)), r.log, List.range len, []⟩

/-- State of the `do ... while` loop of `skein_hash_hex`. -/
structure HexState where
  res : Nat → Nat
  resptr : Nat
  j : Nat
  hash_reads : List Nat
  res_writes : List Nat

/-- The loop
`do { *resptr++ = hexits[(hash[j] & 0xf0) >> 4]; *resptr++ = hexits[hash[j] & 0x0f]; } while (++j < real_hash_size);`
with a bound on the number of iterations; `none` means the bound was reached. -/
def hex_loop (char_is_signed : Bool) (hash : Nat → Nat) (real_hash_size : Nat) :
    Nat → HexState → Option HexState
  | 0, _ => none
  | fuel + 1, s =>
    let c := char_value char_is_signed (hash s.j)
    let s1 : HexState :=
      ⟨store s.res s.resptr (hexits_at (c_shr (c_and c 0xf0) 4)), s.resptr + 1, s.j,
        s.hash_reads ++ [s.j], s.res_writes ++ [s.resptr]⟩
    let s2 : HexState :=
      ⟨store s1.res s1.resptr (hexits_at (c_and c 0x0f)), s1.resptr + 1, s1.j,
        s1.hash_reads ++ [s1.j], s1.res_writes ++ [s1.resptr]⟩
    let s3 : HexState := ⟨s2.res, s2.resptr, s2.j + 1, s2.hash_reads, s2.res_writes⟩
    if s3.j < real_hash_size then hex_loop char_is_signed hash real_hash_size fuel s3
    else some s3

/-- The entry point `PHP_FUNCTION(skein_hash_hex)`; `hash` and `res` are the prior contents of
`char hash[128]` and `char res[256]`.  Every store into `res` (the terminator `*resptr = 0`
included) and every read of `hash` is recorded; a run with a store at an offset of 256 or
more, or a read at an offset of 128 or more, has left its arrays and ends as
`undefined_behaviour` instead of returning.  `none` only if the loop bound were reached. -/
def skein_hash_hex (char_is_signed : Bool) (core : SkeinCore) (hash res : Nat → Nat)
    (args : ParseResult) : Option PhpRun :=
  match args with
  | ParseResult.FAILURE => some ⟨Outcome.returned zval.null, [], [], []⟩
  | ParseResult.SUCCESS buf arg =>
    let hash_bitlen : Int := arg.getD SKEIN_DEFAULT_BITS_LENGTH
    if hash_bitlen < 1 ∨ hash_bitlen > 1024 then
      some ⟨Outcome.returned (zval.bool false), [Event.php_error_docref "Bad bit length"], [], []⟩
    else
      let r := skein_hash_buffer core hash 128 buf buf.length (size_t_of_long hash_bitlen)
      if r.ret ≠ 0 then
        some ⟨Outcome.returned (zval.bool false), r.log, [], []⟩
      else
        let real_hash_size := (ceil_of_long (hash_bitlen.tdiv 8)).toNat
        if real_hash_size > 128 then
          some ⟨Outcome.aborted, r.log ++ [Event.abort], [], []⟩
        else
          match hex_loop char_is_signed r.hash real_hash_size (real_hash_size + 1)
              ⟨res, 0, 0, [], []⟩ with
          | none => none
          | some s =>
            let res1 := store s.res s.resptr 0
            let res_writes := s.res_writes ++ [s.resptr]
            if (∀ i ∈ res_writes, i < 256) ∧ (∀ k ∈ s.hash_reads, k < 128) then
              some ⟨Outcome.returned (zval.string (read_bytes res1 s.resptr)), r.log,
                s.hash_reads, res_writes⟩
            else
              some ⟨Outcome.undefined_behaviour, r.log, s.hash_reads, res_writes⟩

/-! ## Spec-side definitions -/

/-- Hex encoding as the specification words it: for each byte, in order, two characters
of `0123456789abcdef`, high nibble first, nothing in between. -/
def hex_encode : List Nat → List Nat
  | [] => []
  | b :: bs => hexits.getD (b % 256 / 16) 0 :: hexits.getD (b % 16) 0 :: hex_encode bs

/-- The sixteen lowercase hex digits as character codes. -/
def hex_digits : List Nat :=
  "0123456789abcdef".toList.map Char.toNat

/-- Digest ceiling in bytes of the instantiation `skein_hash_buffer` picks for a bit length. -/
def region_bytes (hash_bitlen : Nat) : Nat :=
  if hash_bitlen ≤ 256 then 32 else if hash_bitlen ≤ 512 then 64 else 128

/-- First character the loop body stores for a digest byte. -/
def hi_char (sg : Bool) (b : Nat) : Nat := hexits_at (c_shr (c_and (char_value sg b) 0xf0) 4)

/-- Second character the loop body stores for a digest byte. -/
def lo_char (sg : Bool) (b : Nat) : Nat := hexits_at (c_and (char_value sg b) 0x0f)

/-- Instantiation selection as the specification words it: at most 256 bits, the 256-bit
variant; at most 512, the 512-bit variant; otherwise the 1024-bit variant. -/
def variant_for (outputBits : Nat) : Variant :=
  if outputBits ≤ 256 then Variant.Skein_256
  else if outputBits ≤ 512 then Variant.Skein_512
  else Variant.Skein1024

/-- Every entry of a list twice in a row: the loop body reads `hash[j]` two times. -/
def each_twice : List Nat → List Nat
  | [] => []
  | a :: l => a :: a :: each_twice l

/-- The instantiation whose helper an event enters, if it is such an event. -/
def entered : Event → Option Variant
  | Event.hash_buffer v => some v
  | _ => none

/-! ## A stand-in core for concrete runs

Not Skein: a stream interface with the right shape, used where a statement is
instantiated at concrete arguments. -/

/-- A stand-in instantiation: the context records the bit length and the bytes absorbed;
`Final` yields `ceil(bits / 8)` bytes that depend on both. -/
def demoFns (tag : Nat) : SkeinFns where
  Ctxt := Nat × List Nat
  Init := fun bits => (bits, [])
  Update := fun c m => (c.1, c.2 ++ m)
  Final := fun c => (List.range ((c.1 + 7) / 8)).map (fun i => (c.2.sum + tag + 37 * i + 165) % 256)

/-- The stand-in core. -/
def demoCore : SkeinCore := ⟨demoFns 1, demoFns 2, demoFns 3⟩

/-- A stack array holding leftover bytes. -/
def garbage (seed : Nat) : Nat → Nat := fun i => (seed + 7 * i) % 256


/-! ## Arithmetic of the binding -/

theorem ceil_of_long_eq (q : Int) : ceil_of_long q = q := by
  simp [ceil_of_long]

theorem real_size_eq (B : Int) (h1 : 1 ≤ B) :
    (ceil_of_long (B.tdiv 8)).toNat = B.toNat / 8 := by
  rw [ceil_of_long_eq, Int.tdiv_eq_ediv (by omega) (by norm_num)]
  omega

theorem size_t_of_long_eq (B : Int) (h1 : 1 ≤ B) (h2 : B ≤ 1024) :
    size_t_of_long B = B.toNat := by
  unfold size_t_of_long
  omega

theorem region_bytes_le (n : Nat) : region_bytes n ≤ 128 := by
  unfold region_bytes
  split_ifs <;> omega

theorem real_size_le_region (n : Nat) (h : n ≤ 1024) : n / 8 ≤ region_bytes n := by
  unfold region_bytes
  split_ifs <;> omega

theorem one_le_region (n : Nat) : 1 ≤ region_bytes n := by
  unfold region_bytes
  split_ifs <;> omega

/-! ## The one-shot helpers -/

theorem skein_hash_buffer_ret (core : SkeinCore) (hash : Nat → Nat) (sz : Nat) (hsz : 128 ≤ sz)
    (buf : List Nat) (n B : Nat) : (skein_hash_buffer core hash sz buf n B).ret = 0 := by
  unfold skein_hash_buffer skein256_hash_buffer skein512_hash_buffer skein1024_hash_buffer
  split_ifs <;> first | rfl | omega

theorem skein_hash_buffer_log (core : SkeinCore) (h1 h2 : Nat → Nat) (sz : Nat)
    (buf : List Nat) (n B : Nat) :
    (skein_hash_buffer core h1 sz buf n B).log = (skein_hash_buffer core h2 sz buf n B).log := by
  unfold skein_hash_buffer skein256_hash_buffer skein512_hash_buffer skein1024_hash_buffer
  split_ifs <;> rfl

theorem skein_hash_buffer_region (core : SkeinCore) (h1 h2 : Nat → Nat) (sz : Nat)
    (hsz : 128 ≤ sz) (buf : List Nat) (n B : Nat) (i : Nat) (hi : i < region_bytes B) :
    (skein_hash_buffer core h1 sz buf n B).hash i = (skein_hash_buffer core h2 sz buf n B).hash i := by
  unfold region_bytes at hi
  unfold skein_hash_buffer skein256_hash_buffer skein512_hash_buffer skein1024_hash_buffer
  split_ifs at hi ⊢ <;> first | omega | (simp only [write_bytes, memset]; split_ifs <;> rfl)


/-! ## The hex loop -/

theorem hex_loop_spec (sg : Bool) (hash : Nat → Nat) (n : Nat) :
    ∀ (fuel : Nat) (s : HexState), max 1 (n - s.j) ≤ fuel →
      ∃ s', hex_loop sg hash n fuel s = some s' ∧
        s'.resptr = s.resptr + 2 * max 1 (n - s.j) ∧
        s'.j = s.j + max 1 (n - s.j) ∧
        s'.hash_reads = s.hash_reads ++ each_twice (List.range' s.j (max 1 (n - s.j))) ∧
        s'.res_writes = s.res_writes ++ List.range' s.resptr (2 * max 1 (n - s.j)) ∧
        ∀ i, s'.res i =
          if s.resptr ≤ i ∧ i < s.resptr + 2 * max 1 (n - s.j) then
            (if (i - s.resptr) % 2 = 0 then hi_char sg (hash (s.j + (i - s.resptr) / 2))
             else lo_char sg (hash (s.j + (i - s.resptr) / 2)))
          else s.res i := by
  intro fuel
  induction fuel with
  | zero => intro s h; omega
  | succ fuel ih =>
    intro s h
    rw [hex_loop]
    by_cases hj : s.j + 1 < n
    · simp only [hj, if_true]
      have hk : max 1 (n - s.j) = (n - (s.j + 1)) + 1 := by omega
      have hk' : max 1 (n - (s.j + 1)) = n - (s.j + 1) := by omega
      obtain ⟨s', hs', hp, hjj, hr, hw, hres⟩ := ih
        ⟨store (store s.res s.resptr (hexits_at (c_shr (c_and (char_value sg (hash s.j)) 0xf0) 4)))
            (s.resptr + 1) (hexits_at (c_and (char_value sg (hash s.j)) 0x0f)),
          s.resptr + 1 + 1, s.j + 1, s.hash_reads ++ [s.j] ++ [s.j],
          s.res_writes ++ [s.resptr] ++ [s.resptr + 1]⟩ (by simp only; omega)
      simp only at hs' hp hjj hr hw hres
      rw [hk'] at hp hjj hr hw hres
      refine ⟨s', hs', ?_, ?_, ?_, ?_, ?_⟩
      · rw [hp, hk]; omega
      · rw [hjj, hk]; omega
      · rw [hr, hk, List.range'_succ]; simp [each_twice]
      · rw [hw, hk]
        have : 2 * (n - (s.j + 1) + 1) = (2 * (n - (s.j + 1)) + 1) + 1 := by omega
        rw [this, List.range'_succ, List.range'_succ]; simp
      · intro i
        rw [hres i, hk]
        by_cases c1 : i = s.resptr
        · have c3 : ¬ (s.resptr + 1 + 1 ≤ i ∧ i < s.resptr + 1 + 1 + 2 * (n - (s.j + 1))) := by omega
          have c4 : s.resptr ≤ i ∧ i < s.resptr + 2 * (n - (s.j + 1) + 1) := by omega
          have e1 : (i - s.resptr) % 2 = 0 := by omega
          have e2 : s.j + (i - s.resptr) / 2 = s.j := by omega
          rw [if_neg c3, if_pos c4, if_pos e1, e2]
          simp [store, hi_char, c1]
        · by_cases c2 : i = s.resptr + 1
          · have c3 : ¬ (s.resptr + 1 + 1 ≤ i ∧ i < s.resptr + 1 + 1 + 2 * (n - (s.j + 1))) := by omega
            have c4 : s.resptr ≤ i ∧ i < s.resptr + 2 * (n - (s.j + 1) + 1) := by omega
            have e1 : ¬ ((i - s.resptr) % 2 = 0) := by omega
            have e2 : s.j + (i - s.resptr) / 2 = s.j := by omega
            rw [if_neg c3, if_pos c4, if_neg e1, e2]
            simp [store, lo_char, c2]
          · by_cases c3 : s.resptr + 1 + 1 ≤ i ∧ i < s.resptr + 1 + 1 + 2 * (n - (s.j + 1))
            · have c4 : s.resptr ≤ i ∧ i < s.resptr + 2 * (n - (s.j + 1) + 1) := by omega
              have e1 : (i - (s.resptr + 1 + 1)) % 2 = (i - s.resptr) % 2 := by omega
              have e2 : s.j + 1 + (i - (s.resptr + 1 + 1)) / 2 = s.j + (i - s.resptr) / 2 := by omega
              rw [if_pos c3, if_pos c4, e1, e2]
            · have c4 : ¬ (s.resptr ≤ i ∧ i < s.resptr + 2 * (n - (s.j + 1) + 1)) := by omega
              rw [if_neg c3, if_neg c4]
              simp [store, c1, c2]
    · simp only [hj, if_false]
      have hk : max 1 (n - s.j) = 1 := by omega
      refine ⟨_, rfl, ?_, ?_, ?_, ?_, ?_⟩
      · simp only [hk]
      · simp only [hk]
      · simp only [hk]; simp [each_twice]
      · simp only [hk]; simp [List.range'_succ]
      · intro i
        simp only [hk]
        by_cases c1 : i = s.resptr
        · have c4 : s.resptr ≤ i ∧ i < s.resptr + 2 * 1 := by omega
          have e1 : (i - s.resptr) % 2 = 0 := by omega
          have e2 : s.j + (i - s.resptr) / 2 = s.j := by omega
          rw [if_pos c4, if_pos e1, e2]
          simp [store, hi_char, c1]
        · by_cases c2 : i = s.resptr + 1
          · have c4 : s.resptr ≤ i ∧ i < s.resptr + 2 * 1 := by omega
            have e1 : ¬ ((i - s.resptr) % 2 = 0) := by omega
            have e2 : s.j + (i - s.resptr) / 2 = s.j := by omega
            rw [if_pos c4, if_neg e1, e2]
            simp [store, lo_char, c2]
          · have c4 : ¬ (s.resptr ≤ i ∧ i < s.resptr + 2 * 1) := by omega
            rw [if_neg c4]
            simp [store, c1, c2]


theorem hi_char_eq (sg : Bool) (b : Nat) : hi_char sg b = hexits.getD (b % 256 / 16) 0 := by
  have hb : b % 256 < 256 := Nat.mod_lt _ (by norm_num)
  unfold hi_char char_value
  generalize b % 256 = x at hb
  cases sg <;> interval_cases x <;> rfl

theorem lo_char_eq (sg : Bool) (b : Nat) : lo_char sg b = hexits.getD (b % 16) 0 := by
  have hb : b % 256 < 256 := Nat.mod_lt _ (by norm_num)
  have e : b % 16 = b % 256 % 16 := by omega
  rw [e]
  unfold lo_char char_value
  generalize b % 256 = x at hb
  cases sg <;> interval_cases x <;> rfl

theorem hexits_nibble_mem (x : Nat) (hx : x < 16) : hexits.getD x 0 ∈ hex_digits := by
  interval_cases x <;> decide

theorem hex_encode_append (l : List Nat) (b : Nat) :
    hex_encode (l ++ [b]) = hex_encode l ++ [hexits.getD (b % 256 / 16) 0, hexits.getD (b % 16) 0] := by
  induction l with
  | nil => rfl
  | cons a l ih => simp [hex_encode, ih]

theorem hex_encode_length (l : List Nat) : (hex_encode l).length = 2 * l.length := by
  induction l with
  | nil => rfl
  | cons a l ih => simp [hex_encode, ih]; omega

theorem hex_encode_mem (l : List Nat) : ∀ c ∈ hex_encode l, c ∈ hex_digits := by
  induction l with
  | nil => intro c hc; simp [hex_encode] at hc
  | cons a l ih =>
    intro c hc
    simp only [hex_encode, List.mem_cons] at hc
    rcases hc with h | h | h
    · rw [h]; exact hexits_nibble_mem _ (by omega)
    · rw [h]; exact hexits_nibble_mem _ (by omega)
    · exact ih c h

theorem read_bytes_length (mem : Nat → Nat) (n : Nat) : (read_bytes mem n).length = n := by
  simp [read_bytes]

theorem read_bytes_congr (m1 m2 : Nat → Nat) (n : Nat) (h : ∀ i, i < n → m1 i = m2 i) :
    read_bytes m1 n = read_bytes m2 n := by
  unfold read_bytes
  apply List.map_congr_left
  intro i hi
  exact h i (List.mem_range.mp hi)

theorem read_hex (sg : Bool) (res hash : Nat → Nat) (k : Nat)
    (h : ∀ i, i < 2 * k → res i = if i % 2 = 0 then hi_char sg (hash (i / 2)) else lo_char sg (hash (i / 2))) :
    read_bytes res (2 * k) = hex_encode (read_bytes hash k) := by
  induction k with
  | zero => rfl
  | succ k ih =>
    have e : 2 * (k + 1) = 2 * k + 1 + 1 := by omega
    have a0 := h (2 * k) (by omega)
    have a1 := h (2 * k + 1) (by omega)
    have m0 : (2 * k) % 2 = 0 := by omega
    have m1 : ¬ ((2 * k + 1) % 2 = 0) := by omega
    have d0 : (2 * k) / 2 = k := by omega
    have d1 : (2 * k + 1) / 2 = k := by omega
    rw [if_pos m0, d0, hi_char_eq] at a0
    rw [if_neg m1, d1, lo_char_eq] at a1
    have ih' := ih (fun i hi => h i (by omega))
    unfold read_bytes at ih' ⊢
    rw [e, List.range_succ, List.range_succ, List.range_succ]
    simp only [List.map_append, List.map_cons, List.map_nil]
    rw [ih', hex_encode_append, a0, a1]
    simp


/-! ## Closed forms of the entry points on an accepted bit length -/

theorem mem_each_twice (l : List Nat) (i : Nat) : i ∈ each_twice l ↔ i ∈ l := by
  induction l with
  | nil => simp [each_twice]
  | cons a l ih => simp [each_twice, ih]

theorem skein_hash_closed (core : SkeinCore) (hash : Nat → Nat) (M : List Nat)
    (arg : Option Int) (B : Int) (hB : arg.getD SKEIN_DEFAULT_BITS_LENGTH = B)
    (h1 : 1 ≤ B) (h2 : B ≤ 1024) :
    skein_hash core hash (ParseResult.SUCCESS M arg) =
      ⟨Outcome.returned (zval.string
          (read_bytes (skein_hash_buffer core hash 128 M M.length B.toNat).hash (B.toNat / 8))),
        (skein_hash_buffer core hash 128 M M.length B.toNat).log,
        List.range (B.toNat / 8), []⟩ := by
  have hv : ¬ (B < 1 ∨ B > 1024) := by omega
  simp only [skein_hash, hB, if_neg hv, size_t_of_long_eq B h1 h2,
    skein_hash_buffer_ret core hash 128 (le_refl _), real_size_eq B h1, ne_eq,
    not_true_eq_false, if_false]

theorem skein_hash_valid (core : SkeinCore) (hash : Nat → Nat) (M : List Nat) (B : Int)
    (h1 : 1 ≤ B) (h2 : B ≤ 1024) :
    skein_hash core hash (ParseResult.SUCCESS M (some B)) =
      ⟨Outcome.returned (zval.string
          (read_bytes (skein_hash_buffer core hash 128 M M.length B.toNat).hash (B.toNat / 8))),
        (skein_hash_buffer core hash 128 M M.length B.toNat).log,
        List.range (B.toNat / 8), []⟩ :=
  skein_hash_closed core hash M (some B) B rfl h1 h2

theorem skein_hash_hex_closed (sg : Bool) (core : SkeinCore) (hash res : Nat → Nat)
    (M : List Nat) (arg : Option Int) (B : Int) (hB : arg.getD SKEIN_DEFAULT_BITS_LENGTH = B)
    (h1 : 1 ≤ B) (h2 : B ≤ 1024) :
    skein_hash_hex sg core hash res (ParseResult.SUCCESS M arg) =
      some ⟨if B ≤ 1023 then
          Outcome.returned (zval.string (hex_encode
            (read_bytes (skein_hash_buffer core hash 128 M M.length B.toNat).hash
              (max 1 (B.toNat / 8)))))
        else Outcome.undefined_behaviour,
        (skein_hash_buffer core hash 128 M M.length B.toNat).log,
        each_twice (List.range (max 1 (B.toNat / 8))),
        List.range (2 * max 1 (B.toNat / 8) + 1)⟩ := by
  have hv : ¬ (B < 1 ∨ B > 1024) := by omega
  have hsz : ¬ (B.toNat / 8 > 128) := by omega
  obtain ⟨s', hs', hp, _, hr, hw, hres⟩ :=
    hex_loop_spec sg (skein_hash_buffer core hash 128 M M.length B.toNat).hash (B.toNat / 8)
      (B.toNat / 8 + 1) ⟨res, 0, 0, [], []⟩ (by simp only; omega)
  simp only [Nat.sub_zero, Nat.zero_add, List.nil_append] at hp hr hw hres
  have hrd : read_bytes (store s'.res s'.resptr 0) s'.resptr =
      hex_encode (read_bytes (skein_hash_buffer core hash 128 M M.length B.toNat).hash
        (max 1 (B.toNat / 8))) := by
    rw [hp]
    apply read_hex sg
    intro i hi
    have hne : ¬ (i = 2 * max 1 (B.toNat / 8)) := by omega
    have hc : 0 ≤ i ∧ i < 2 * max 1 (B.toNat / 8) := ⟨Nat.zero_le _, hi⟩
    simp only [store, if_neg hne]
    rw [hres i, if_pos hc]
  have hwr : s'.res_writes ++ [s'.resptr] = List.range (2 * max 1 (B.toNat / 8) + 1) := by
    rw [hw, hp, ← List.range_eq_range', List.range_succ]
  have hrr : s'.hash_reads = each_twice (List.range (max 1 (B.toNat / 8))) := by
    rw [hr, ← List.range_eq_range']
  have hreads : ∀ k ∈ each_twice (List.range (max 1 (B.toNat / 8))), k < 128 := by
    intro k hk
    have := List.mem_range.mp ((mem_each_twice _ _).mp hk)
    omega
  simp only [skein_hash_hex, hB, if_neg hv, size_t_of_long_eq B h1 h2,
    skein_hash_buffer_ret core hash 128 (le_refl _), real_size_eq B h1, ne_eq,
    not_true_eq_false, if_false, if_neg hsz, hs', hwr, hrr, hrd]
  by_cases hb : B ≤ 1023
  · have hc : (∀ i ∈ List.range (2 * max 1 (B.toNat / 8) + 1), i < 256) ∧
        (∀ k ∈ each_twice (List.range (max 1 (B.toNat / 8))), k < 128) := by
      refine ⟨?_, hreads⟩
      intro i hi
      have := List.mem_range.mp hi
      omega
    rw [if_pos hc, if_pos hb]
  · have hc : ¬ ((∀ i ∈ List.range (2 * max 1 (B.toNat / 8) + 1), i < 256) ∧
        (∀ k ∈ each_twice (List.range (max 1 (B.toNat / 8))), k < 128)) := by
      intro hcon
      have := hcon.1 (2 * max 1 (B.toNat / 8)) (List.mem_range.mpr (by omega))
      omega
    rw [if_neg hc, if_neg hb]

theorem skein_hash_hex_valid (sg : Bool) (core : SkeinCore) (hash res : Nat → Nat)
    (M : List Nat) (B : Int) (h1 : 1 ≤ B) (h2 : B ≤ 1023) :
    skein_hash_hex sg core hash res (ParseResult.SUCCESS M (some B)) =
      some ⟨Outcome.returned (zval.string (hex_encode
          (read_bytes (skein_hash_buffer core hash 128 M M.length B.toNat).hash
            (max 1 (B.toNat / 8))))),
        (skein_hash_buffer core hash 128 M M.length B.toNat).log,
        each_twice (List.range (max 1 (B.toNat / 8))),
        List.range (2 * max 1 (B.toNat / 8) + 1)⟩ := by
  rw [skein_hash_hex_closed sg core hash res M (some B) B rfl h1 (by omega), if_pos h2]

theorem skein_hash_hex_at_1024 (sg : Bool) (core : SkeinCore) (hash res : Nat → Nat)
    (M : List Nat) :
    skein_hash_hex sg core hash res (ParseResult.SUCCESS M (some 1024)) =
      some ⟨Outcome.undefined_behaviour,
        (skein_hash_buffer core hash 128 M M.length 1024).log,
        each_twice (List.range 128), List.range 257⟩ := by
  have e : (1024 : Int).toNat = 1024 := by simp
  have e8 : max 1 (1024 / 8) = 128 := by simp
  have hb : ¬ ((1024 : Int) ≤ 1023) := by norm_num
  rw [skein_hash_hex_closed sg core hash res M (some 1024) 1024 rfl (by norm_num) (by norm_num),
    if_neg hb, e, e8]

theorem skein_hash_buffer_no_abort (core : SkeinCore) (hash : Nat → Nat) (sz : Nat)
    (buf : List Nat) (n B : Nat) : Event.abort ∉ (skein_hash_buffer core hash sz buf n B).log := by
  unfold skein_hash_buffer skein256_hash_buffer skein512_hash_buffer skein1024_hash_buffer
  split_ifs <;> simp

theorem skein_hash_length (core : SkeinCore) (hash : Nat → Nat) (M : List Nat) (B : Int)
    (h1 : 1 ≤ B) (h2 : B ≤ 1024) :
    ∃ s, (skein_hash core hash (ParseResult.SUCCESS M (some B))).outcome
        = Outcome.returned (zval.string s) ∧ s.length = B.toNat / 8 := by
  rw [skein_hash_valid core hash M B h1 h2]
  exact ⟨_, rfl, read_bytes_length _ _⟩

theorem skein_hash_hex_length (sg : Bool) (core : SkeinCore) (hash res : Nat → Nat)
    (M : List Nat) (B : Int) (h1 : 1 ≤ B) (h2 : B ≤ 1023) :
    ∃ s, (skein_hash_hex sg core hash res (ParseResult.SUCCESS M (some B))).map PhpRun.outcome
        = some (Outcome.returned (zval.string s)) ∧ s.length = 2 * max 1 (B.toNat / 8) ∧
        ∀ c ∈ s, c ∈ hex_digits := by
  rw [skein_hash_hex_valid sg core hash res M B h1 h2]
  refine ⟨_, rfl, ?_, hex_encode_mem _⟩
  rw [hex_encode_length, read_bytes_length]

theorem skein_hash_buffer_entered (core : SkeinCore) (hash : Nat → Nat) (sz : Nat)
    (buf : List Nat) (n B : Nat) :
    (skein_hash_buffer core hash sz buf n B).log.filterMap entered = [variant_for B] := by
  unfold skein_hash_buffer variant_for skein256_hash_buffer skein512_hash_buffer
    skein1024_hash_buffer
  split_ifs <;> rfl

theorem skein_hash_bad (core : SkeinCore) (hash : Nat → Nat) (M : List Nat) (B : Int)
    (hB : B < 1 ∨ B > 1024) :
    skein_hash core hash (ParseResult.SUCCESS M (some B))
      = ⟨Outcome.returned (zval.bool false), [Event.php_error_docref "Bad bit length"], [], []⟩ := by
  simp only [skein_hash, Option.getD_some, if_pos hB]

theorem skein_hash_hex_bad (sg : Bool) (core : SkeinCore) (hash res : Nat → Nat) (M : List Nat)
    (B : Int) (hB : B < 1 ∨ B > 1024) :
    skein_hash_hex sg core hash res (ParseResult.SUCCESS M (some B))
      = some ⟨Outcome.returned (zval.bool false), [Event.php_error_docref "Bad bit length"],
          [], []⟩ := by
  simp only [skein_hash_hex, Option.getD_some, if_pos hB]

/-- The loop bound of `skein_hash_hex` is never reached: every call yields a run. -/
theorem skein_hash_hex_total (sg : Bool) (core : SkeinCore) (hash res : Nat → Nat)
    (args : ParseResult) : ∃ run, skein_hash_hex sg core hash res args = some run := by
  cases args with
  | FAILURE => exact ⟨_, rfl⟩
  | SUCCESS M arg =>
    by_cases hv : arg.getD SKEIN_DEFAULT_BITS_LENGTH < 1 ∨ arg.getD SKEIN_DEFAULT_BITS_LENGTH > 1024
    · refine ⟨⟨Outcome.returned (zval.bool false),
        [Event.php_error_docref "Bad bit length"], [], []⟩, ?_⟩
      simp only [skein_hash_hex, if_pos hv]
    · exact ⟨_, skein_hash_hex_closed sg core hash res M arg _ rfl (by omega) (by omega)⟩

/-- Both subscripts the loop body uses on `hexits` are in 0..15, for either signedness of
`char` and every byte. -/
theorem hexits_index_range (sg : Bool) (b : Nat) :
    (0 ≤ c_shr (c_and (char_value sg b) 0xf0) 4 ∧ c_shr (c_and (char_value sg b) 0xf0) 4 ≤ 15) ∧
      (0 ≤ c_and (char_value sg b) 0x0f ∧ c_and (char_value sg b) 0x0f ≤ 15) := by
  have hb : b % 256 < 256 := Nat.mod_lt _ (by norm_num)
  unfold char_value
  generalize b % 256 = x at hb
  cases sg <;> interval_cases x <;> decide

/-- From 8 to 1023 bits the hex string is the encoding of the raw string. -/
theorem hex_is_encoding_of_raw (sg : Bool) (core : SkeinCore) (hash res : Nat → Nat)
    (M : List Nat) (B : Int) (h1 : 8 ≤ B) (h2 : B ≤ 1023) :
    ∃ raw, (skein_hash core hash (ParseResult.SUCCESS M (some B))).outcome
        = Outcome.returned (zval.string raw) ∧
      (skein_hash_hex sg core hash res (ParseResult.SUCCESS M (some B))).map PhpRun.outcome
        = some (Outcome.returned (zval.string (hex_encode raw))) := by
  have hm : max 1 (B.toNat / 8) = B.toNat / 8 := by omega
  rw [skein_hash_valid core hash M B (by omega) (by omega),
    skein_hash_hex_valid sg core hash res M B (by omega) h2, hm]
  exact ⟨_, rfl, rfl⟩

/-- Up to 1023 bits every store into `res`, terminator included, is inside `char res[256]`. -/
theorem hex_stores_in_bounds (sg : Bool) (core : SkeinCore) (hash res : Nat → Nat)
    (M : List Nat) (B : Int) (h1 : 1 ≤ B) (h2 : B ≤ 1023) (run : PhpRun)
    (hrun : skein_hash_hex sg core hash res (ParseResult.SUCCESS M (some B)) = some run) :
    ∀ i ∈ run.res_writes, i < 256 := by
  rw [skein_hash_hex_valid sg core hash res M B h1 (by omega)] at hrun
  cases hrun
  intro i hi
  have := List.mem_range.mp hi
  omega

/-- Up to 1023 bits the run of `skein_hash_hex` does not depend on what `hash` and `res` held
before, and every offset of `hash` it reads is below the digest ceiling of the selected
instantiation. -/
theorem skein_hash_hex_ignores_prior_stack (sg : Bool) (core : SkeinCore) (M : List Nat)
    (B : Int) (hashA hashB resA resB : Nat → Nat) (h1 : 1 ≤ B) (h2 : B ≤ 1023) :
    skein_hash_hex sg core hashA resA (ParseResult.SUCCESS M (some B))
        = skein_hash_hex sg core hashB resB (ParseResult.SUCCESS M (some B)) ∧
      ∀ run, skein_hash_hex sg core hashA resA (ParseResult.SUCCESS M (some B)) = some run →
        ∀ i ∈ run.hash_reads, i < region_bytes B.toNat := by
  have hle := real_size_le_region B.toNat (by omega)
  have hone := one_le_region B.toNat
  have hmax : max 1 (B.toNat / 8) ≤ region_bytes B.toNat := by omega
  rw [skein_hash_hex_valid sg core hashA resA M B h1 h2,
    skein_hash_hex_valid sg core hashB resB M B h1 h2]
  refine ⟨?_, ?_⟩
  · rw [skein_hash_buffer_log core hashA hashB,
      read_bytes_congr _ _ _ (fun i hi =>
        skein_hash_buffer_region core hashA hashB 128 (le_refl _) M M.length B.toNat i (by omega))]
  · intro run hrun i hi
    cases hrun
    have := List.mem_range.mp ((mem_each_twice _ _).mp hi)
    omega

/-- The entry points return `false` exactly for a bit length below 1 or above 1024. -/
theorem returns_false_iff_bad_bit_length (sg : Bool) (core : SkeinCore) (hash res : Nat → Nat)
    (M : List Nat) (B : Int) :
    ((skein_hash core hash (ParseResult.SUCCESS M (some B))).outcome
        = Outcome.returned (zval.bool false) ↔ (B < 1 ∨ B > 1024)) ∧
      ((skein_hash_hex sg core hash res (ParseResult.SUCCESS M (some B))).map PhpRun.outcome
        = some (Outcome.returned (zval.bool false)) ↔ (B < 1 ∨ B > 1024)) := by
  refine ⟨?_, ?_⟩
  · constructor
    · intro h
      by_contra hv
      rw [skein_hash_valid core hash M B (by omega) (by omega)] at h
      simp at h
    · intro hB
      rw [skein_hash_bad core hash M B hB]
  · constructor
    · intro h
      by_contra hv
      rw [skein_hash_hex_closed sg core hash res M (some B) B rfl (by omega) (by omega)] at h
      by_cases hb : B ≤ 1023
      · rw [if_pos hb] at h
        simp at h
      · rw [if_neg hb] at h
        simp at h
    · intro hB
      rw [skein_hash_hex_bad sg core hash res M B hB]
      rfl

/-- For an accepted bit length `skein_hash` passes every check and returns a string; up to 1023
bits so does `skein_hash_hex`, without calling `abort`. -/
theorem accepted_bit_length_returns_string (sg : Bool) (core : SkeinCore)
    (hash res : Nat → Nat) (M : List Nat) (B : Int) (h1 : 1 ≤ B) (h2 : B ≤ 1024) :
    (skein_hash_buffer core hash 128 M M.length (size_t_of_long B)).ret = 0 ∧
      ¬ ((ceil_of_long (B.tdiv 8)).toNat > 128) ∧
      (∃ s, (skein_hash core hash (ParseResult.SUCCESS M (some B))).outcome
        = Outcome.returned (zval.string s)) ∧
      (B ≤ 1023 →
        ∃ run s, skein_hash_hex sg core hash res (ParseResult.SUCCESS M (some B)) = some run ∧
          run.outcome = Outcome.returned (zval.string s) ∧ Event.abort ∉ run.log) := by
  refine ⟨skein_hash_buffer_ret core hash 128 (le_refl _) _ _ _, ?_, ?_, ?_⟩
  · rw [real_size_eq B h1]; omega
  · rw [skein_hash_valid core hash M B h1 h2]
    exact ⟨_, rfl⟩
  · intro h3
    rw [skein_hash_hex_valid sg core hash res M B h1 h3]
    exact ⟨_, _, rfl, rfl, skein_hash_buffer_no_abort _ _ _ _ _ _⟩

/-! ## The claims -/

/-- C1 (the code departs from it): asked for 1 bit, `skein_hash` returns the empty string
for every core, every prior buffer content and every message, whereas `ceil(1/8)` is 1
byte; asked for 300 bits it returns 37 bytes, not 38: `ceil(hash_bitlen / 8)` divides on
`long` first, so the length is `floor(B/8)`. -/
theorem skein_hash_length_is_floor (core : SkeinCore) (hash : Nat → Nat) (M : List Nat) :
    (skein_hash core hash (ParseResult.SUCCESS M (some 1))).outcome
        = Outcome.returned (zval.string []) ∧
      (∃ s, (skein_hash core hash (ParseResult.SUCCESS M (some 300))).outcome
        = Outcome.returned (zval.string s) ∧ s.length = 37) ∧
      (1 + 7) / 8 = 1 ∧ (300 + 7) / 8 = 38 := by
  refine ⟨?_, ?_, rfl, rfl⟩
  · rw [skein_hash_valid core hash M 1 (by norm_num) (by norm_num)]
    rfl
  · obtain ⟨s, hs, hl⟩ := skein_hash_length core hash M 300 (by norm_num) (by norm_num)
    exact ⟨s, hs, by rw [hl]; simp⟩

/-- C2: `skein_hash_buffer` dispatches on the bit length alone: it is the 256-bit helper
when `B ≤ 256`, the 512-bit helper when `256 < B ≤ 512`, the 1024-bit helper when
`512 < B`; exactly one helper is entered; 256 gives 256, 257 and 512 give 512, 513
gives 1024. -/
theorem skein_hash_buffer_selects (core : SkeinCore) (hash : Nat → Nat) (sizeof_hash : Nat)
    (buf : List Nat) (buf_size B : Nat) :
    skein_hash_buffer core hash sizeof_hash buf buf_size B =
        (match variant_for B with
          | Variant.Skein_256 => skein256_hash_buffer core hash sizeof_hash buf buf_size B
          | Variant.Skein_512 => skein512_hash_buffer core hash sizeof_hash buf buf_size B
          | Variant.Skein1024 => skein1024_hash_buffer core hash sizeof_hash buf buf_size B) ∧
      (skein_hash_buffer core hash sizeof_hash buf buf_size B).log.filterMap entered
        = [variant_for B] ∧
      (variant_for B = Variant.Skein_256 ↔ B ≤ 256) ∧
      (variant_for B = Variant.Skein_512 ↔ 256 < B ∧ B ≤ 512) ∧
      (variant_for B = Variant.Skein1024 ↔ 512 < B) ∧
      variant_for 256 = Variant.Skein_256 ∧ variant_for 257 = Variant.Skein_512 ∧
      variant_for 512 = Variant.Skein_512 ∧ variant_for 513 = Variant.Skein1024 := by
  refine ⟨?_, ?_, ?_, ?_, ?_, by decide, by decide, by decide, by decide⟩
  · unfold skein_hash_buffer variant_for
    split_ifs <;> rfl
  · exact skein_hash_buffer_entered core hash sizeof_hash buf buf_size B
  · unfold variant_for
    split_ifs <;> simp <;> omega
  · unfold variant_for
    split_ifs <;> simp <;> omega
  · unfold variant_for
    split_ifs <;> simp <;> omega

/-- C3: for a bit length below 1 or above 1024 both entry points return `false` after the
warning and nothing else: no helper is entered, no `Init`/`Update`/`Final`, no byte of
`hash` is read and none of `res` is written. -/
theorem bad_bit_length_rejected (sg : Bool) (core : SkeinCore) (hash res : Nat → Nat)
    (M : List Nat) (B : Int) (hB : B < 1 ∨ B > 1024) :
    skein_hash core hash (ParseResult.SUCCESS M (some B))
        = ⟨Outcome.returned (zval.bool false), [Event.php_error_docref "Bad bit length"], [], []⟩ ∧
      skein_hash_hex sg core hash res (ParseResult.SUCCESS M (some B))
        = some ⟨Outcome.returned (zval.bool false), [Event.php_error_docref "Bad bit length"],
            [], []⟩ := by
  exact ⟨skein_hash_bad core hash M B hB, skein_hash_hex_bad sg core hash res M B hB⟩

theorem bad_bit_length_rejected_witness :
    (skein_hash demoCore (garbage 1) (ParseResult.SUCCESS [97, 98, 99] (some 0))
        = ⟨Outcome.returned (zval.bool false), [Event.php_error_docref "Bad bit length"], [], []⟩ ∧
      skein_hash_hex true demoCore (garbage 1) (garbage 2) (ParseResult.SUCCESS [97, 98, 99] (some 0))
        = some ⟨Outcome.returned (zval.bool false), [Event.php_error_docref "Bad bit length"],
            [], []⟩) ∧
    (skein_hash demoCore (garbage 1) (ParseResult.SUCCESS [97, 98, 99] (some 1025))
        = ⟨Outcome.returned (zval.bool false), [Event.php_error_docref "Bad bit length"], [], []⟩ ∧
      skein_hash_hex true demoCore (garbage 1) (garbage 2)
          (ParseResult.SUCCESS [97, 98, 99] (some 1025))
        = some ⟨Outcome.returned (zval.bool false), [Event.php_error_docref "Bad bit length"],
            [], []⟩) :=
  ⟨bad_bit_length_rejected true demoCore (garbage 1) (garbage 2) [97, 98, 99] 0 (by decide),
   bad_bit_length_rejected true demoCore (garbage 1) (garbage 2) [97, 98, 99] 1025 (by decide)⟩

/-- C4 (the code departs from it): asked for 1 bit, `skein_hash` returns the empty string
while `skein_hash_hex` returns two characters, so the hex string is not the encoding of
the raw string (the encoding of the empty string is empty). -/
theorem hex_of_one_bit_is_not_encoding_of_raw (sg : Bool) (core : SkeinCore)
    (hash res : Nat → Nat) (M : List Nat) :
    (skein_hash core hash (ParseResult.SUCCESS M (some 1))).outcome
        = Outcome.returned (zval.string []) ∧
      hex_encode [] = [] ∧
      ∃ c d, (skein_hash_hex sg core hash res (ParseResult.SUCCESS M (some 1))).map PhpRun.outcome
        = some (Outcome.returned (zval.string [c, d])) := by
  rw [skein_hash_valid core hash M 1 (by norm_num) (by norm_num),
    skein_hash_hex_valid sg core hash res M 1 (by norm_num) (by norm_num)]
  exact ⟨rfl, rfl, _, _, rfl⟩

/-- C5: each fixed-width helper, given a buffer size of at least its digest ceiling,
returns 0 after exactly `memset`, one `Init` with the bit length, one `Update` with the
whole message and one `Final`, in that order, and leaves in the buffer the bytes `Final`
yields for `Update (Init B) M`, laid over the zeroed ceiling, bytes beyond untouched. -/
theorem one_shot_is_init_update_final (core : SkeinCore) (hash : Nat → Nat)
    (s256 s512 s1024 : Nat) (M : List Nat) (B : Nat)
    (h256 : 32 ≤ s256) (h512 : 64 ≤ s512) (h1024 : 128 ≤ s1024) :
    ((skein256_hash_buffer core hash s256 M M.length B).ret = 0 ∧
      (skein256_hash_buffer core hash s256 M M.length B).log
        = [Event.hash_buffer Variant.Skein_256, Event.memset 32, Event.Init Variant.Skein_256 B,
           Event.Update Variant.Skein_256 M, Event.Final Variant.Skein_256] ∧
      ∀ i, (skein256_hash_buffer core hash s256 M M.length B).hash i =
        if i < (core.Skein_256.Final (core.Skein_256.Update (core.Skein_256.Init B) M)).length
        then (core.Skein_256.Final (core.Skein_256.Update (core.Skein_256.Init B) M)).getD i 0
        else if i < 32 then 0 else hash i) ∧
    ((skein512_hash_buffer core hash s512 M M.length B).ret = 0 ∧
      (skein512_hash_buffer core hash s512 M M.length B).log
        = [Event.hash_buffer Variant.Skein_512, Event.memset 64, Event.Init Variant.Skein_512 B,
           Event.Update Variant.Skein_512 M, Event.Final Variant.Skein_512] ∧
      ∀ i, (skein512_hash_buffer core hash s512 M M.length B).hash i =
        if i < (core.Skein_512.Final (core.Skein_512.Update (core.Skein_512.Init B) M)).length
        then (core.Skein_512.Final (core.Skein_512.Update (core.Skein_512.Init B) M)).getD i 0
        else if i < 64 then 0 else hash i) ∧
    ((skein1024_hash_buffer core hash s1024 M M.length B).ret = 0 ∧
      (skein1024_hash_buffer core hash s1024 M M.length B).log
        = [Event.hash_buffer Variant.Skein1024, Event.memset 128, Event.Init Variant.Skein1024 B,
           Event.Update Variant.Skein1024 M, Event.Final Variant.Skein1024] ∧
      ∀ i, (skein1024_hash_buffer core hash s1024 M M.length B).hash i =
        if i < (core.Skein1024.Final (core.Skein1024.Update (core.Skein1024.Init B) M)).length
        then (core.Skein1024.Final (core.Skein1024.Update (core.Skein1024.Init B) M)).getD i 0
        else if i < 128 then 0 else hash i) := by
  have g256 : ¬ s256 < 32 := by omega
  have g512 : ¬ s512 < 64 := by omega
  have g1024 : ¬ s1024 < 128 := by omega
  refine ⟨⟨?_, ?_, ?_⟩, ⟨?_, ?_, ?_⟩, ⟨?_, ?_, ?_⟩⟩
  · simp only [skein256_hash_buffer, if_neg g256]
  · simp only [skein256_hash_buffer, if_neg g256, List.take_length]
  · intro i
    simp only [skein256_hash_buffer, if_neg g256, List.take_length, write_bytes, memset]
  · simp only [skein512_hash_buffer, if_neg g512]
  · simp only [skein512_hash_buffer, if_neg g512, List.take_length]
  · intro i
    simp only [skein512_hash_buffer, if_neg g512, List.take_length, write_bytes, memset]
  · simp only [skein1024_hash_buffer, if_neg g1024]
  · simp only [skein1024_hash_buffer, if_neg g1024, List.take_length]
  · intro i
    simp only [skein1024_hash_buffer, if_neg g1024, List.take_length, write_bytes, memset]

theorem one_shot_is_init_update_final_witness :
    ((skein256_hash_buffer demoCore (garbage 9) 32 [1, 2, 3] [1, 2, 3].length 200).ret = 0 ∧
      (skein256_hash_buffer demoCore (garbage 9) 32 [1, 2, 3] [1, 2, 3].length 200).log
        = [Event.hash_buffer Variant.Skein_256, Event.memset 32, Event.Init Variant.Skein_256 200,
           Event.Update Variant.Skein_256 [1, 2, 3], Event.Final Variant.Skein_256] ∧
      ∀ i, (skein256_hash_buffer demoCore (garbage 9) 32 [1, 2, 3] [1, 2, 3].length 200).hash i =
        if i < (demoCore.Skein_256.Final
            (demoCore.Skein_256.Update (demoCore.Skein_256.Init 200) [1, 2, 3])).length
        then (demoCore.Skein_256.Final
            (demoCore.Skein_256.Update (demoCore.Skein_256.Init 200) [1, 2, 3])).getD i 0
        else if i < 32 then 0 else garbage 9 i) ∧
    ((skein512_hash_buffer demoCore (garbage 9) 64 [1, 2, 3] [1, 2, 3].length 200).ret = 0 ∧
      (skein512_hash_buffer demoCore (garbage 9) 64 [1, 2, 3] [1, 2, 3].length 200).log
        = [Event.hash_buffer Variant.Skein_512, Event.memset 64, Event.Init Variant.Skein_512 200,
           Event.Update Variant.Skein_512 [1, 2, 3], Event.Final Variant.Skein_512] ∧
      ∀ i, (skein512_hash_buffer demoCore (garbage 9) 64 [1, 2, 3] [1, 2, 3].length 200).hash i =
        if i < (demoCore.Skein_512.Final
            (demoCore.Skein_512.Update (demoCore.Skein_512.Init 200) [1, 2, 3])).length
        then (demoCore.Skein_512.Final
            (demoCore.Skein_512.Update (demoCore.Skein_512.Init 200) [1, 2, 3])).getD i 0
        else if i < 64 then 0 else garbage 9 i) ∧
    ((skein1024_hash_buffer demoCore (garbage 9) 128 [1, 2, 3] [1, 2, 3].length 200).ret = 0 ∧
      (skein1024_hash_buffer demoCore (garbage 9) 128 [1, 2, 3] [1, 2, 3].length 200).log
        = [Event.hash_buffer Variant.Skein1024, Event.memset 128, Event.Init Variant.Skein1024 200,
           Event.Update Variant.Skein1024 [1, 2, 3], Event.Final Variant.Skein1024] ∧
      ∀ i, (skein1024_hash_buffer demoCore (garbage 9) 128 [1, 2, 3] [1, 2, 3].length 200).hash i =
        if i < (demoCore.Skein1024.Final
            (demoCore.Skein1024.Update (demoCore.Skein1024.Init 200) [1, 2, 3])).length
        then (demoCore.Skein1024.Final
            (demoCore.Skein1024.Update (demoCore.Skein1024.Init 200) [1, 2, 3])).getD i 0
        else if i < 128 then 0 else garbage 9 i) :=
  one_shot_is_init_update_final demoCore (garbage 9) 32 64 128 [1, 2, 3] 200
    (by decide) (by decide) (by decide)

/-- C6: with the bit length omitted both entry points behave as with 512: the run equals
the run for 512, the 512-bit helper is the one entered, the raw string has 64 bytes and
the hex string 128 characters. -/
theorem default_bit_length_is_512 (sg : Bool) (core : SkeinCore) (hash res : Nat → Nat)
    (M : List Nat) :
    skein_hash core hash (ParseResult.SUCCESS M none)
        = skein_hash core hash (ParseResult.SUCCESS M (some 512)) ∧
      skein_hash_hex sg core hash res (ParseResult.SUCCESS M none)
        = skein_hash_hex sg core hash res (ParseResult.SUCCESS M (some 512)) ∧
      (skein_hash core hash (ParseResult.SUCCESS M none)).log.filterMap entered
        = [Variant.Skein_512] ∧
      (∃ s, (skein_hash core hash (ParseResult.SUCCESS M none)).outcome
          = Outcome.returned (zval.string s) ∧ s.length = 64) ∧
      (∃ s, (skein_hash_hex sg core hash res (ParseResult.SUCCESS M none)).map PhpRun.outcome
          = some (Outcome.returned (zval.string s)) ∧ s.length = 128) := by
  have e1 : skein_hash core hash (ParseResult.SUCCESS M none)
      = skein_hash core hash (ParseResult.SUCCESS M (some 512)) := by
    rw [skein_hash_closed core hash M none 512 rfl (by norm_num) (by norm_num),
      skein_hash_valid core hash M 512 (by norm_num) (by norm_num)]
  have e2 : skein_hash_hex sg core hash res (ParseResult.SUCCESS M none)
      = skein_hash_hex sg core hash res (ParseResult.SUCCESS M (some 512)) := by
    rw [skein_hash_hex_closed sg core hash res M none 512 rfl (by norm_num) (by norm_num),
      skein_hash_hex_valid sg core hash res M 512 (by norm_num) (by norm_num),
      if_pos (by norm_num)]
  refine ⟨e1, e2, ?_, ?_, ?_⟩
  · rw [e1, skein_hash_valid core hash M 512 (by norm_num) (by norm_num)]
    exact skein_hash_buffer_entered core hash 128 M M.length 512
  · rw [e1]
    exact skein_hash_length core hash M 512 (by norm_num) (by norm_num)
  · rw [e2]
    obtain ⟨s, hs, hl, _⟩ := skein_hash_hex_length sg core hash res M 512 (by norm_num) (by norm_num)
    exact ⟨s, hs, hl⟩

/-- C8 (the code departs from it): asked for 9 bits, `skein_hash_hex` returns two
characters for every core and message, whereas `2 * ceil(9/8)` is 4. -/
theorem hex_of_nine_bits_has_two_chars (sg : Bool) (core : SkeinCore) (hash res : Nat → Nat)
    (M : List Nat) :
    (∃ c d, (skein_hash_hex sg core hash res (ParseResult.SUCCESS M (some 9))).map PhpRun.outcome
        = some (Outcome.returned (zval.string [c, d]))) ∧ 2 * ((9 + 7) / 8) = 4 := by
  rw [skein_hash_hex_valid sg core hash res M 9 (by norm_num) (by norm_num)]
  exact ⟨⟨_, _, rfl⟩, rfl⟩

/-- C9 (the code departs from it): asked for 1024 bits, `skein_hash_hex` stores to the
offsets 0..256 of `res`, which is declared `char res[256]`: the 256 hex characters fill
the array and the terminating zero goes to offset 256, one past its end. -/
theorem hex_terminator_past_res_at_1024 (sg : Bool) (core : SkeinCore) (hash res : Nat → Nat)
    (M : List Nat) :
    ∃ run, skein_hash_hex sg core hash res (ParseResult.SUCCESS M (some 1024)) = some run ∧
      run.res_writes = List.range 257 ∧ 256 ∈ run.res_writes ∧
      run.res_writes.getLast? = some 256 := by
  have hlast : (List.range 257).getLast? = some 256 := by
    rw [show (257 : Nat) = 256 + 1 from rfl, List.range_succ]
    simp
  refine ⟨_, skein_hash_hex_at_1024 sg core hash res M, ?_, ?_, ?_⟩
  · simp only
  · simp only
    exact List.mem_range.mpr (by norm_num)
  · simp only
    exact hlast

end PhpSkein
